import Mathlib

/-!
Shallow embedding of `data_loading/active_vision_dataset.py` (class `AVD`),
a dataset-indexing adapter over a directory tree of scenes.

Modelling conventions:
* Filesystem paths are lists of components (`os.path.join a b` becomes `[a, b]`).
* The filesystem and the external collaborators (image decoding, JSON parsing)
  are a structure `FS` of functions: directory/file existence tests, directory
  listing, image decoding at a path, and the parsed annotation file at a path
  (a partial map from image name to its record, mirroring a parsed JSON object).
* Images are pixel arrays: lists of rows, each row a list of pixels, each pixel
  a list of channel values (height x width x channels).
* Python list indexing (negative indices wrap) is `pyIndex`; Python slicing
  `xs[a:b]` (negative bounds wrap, out-of-range bounds clamp) is `pySlice`.
* Fallible Python operations (raising exceptions) become `Option` / `Except`.
-/

/-- Pixel array: height x width x channels. -/
abbrev Img : Type := List (List (List Int))

/-- A bounding-box target: a list of boxes, each a list of at least five
numbers `[x_min, y_min, x_max, y_max, instance_id, ...]`. -/
abbrev Target : Type := List (List Int)

/-- Python list indexing `xs[i]`: a negative index wraps once from the end;
`none` models the `IndexError` raised outside `[-len, len)`. -/
def pyIndex {α : Type} (xs : List α) (i : Int) : Option α :=
  let n : Int := xs.length
  let j : Int := if i < 0 then i + n else i
  if 0 ≤ j ∧ j < n then xs.get? j.toNat else none

/-- Python slicing `xs[a:b]` (step 1): negative bounds wrap once from the end,
all bounds clamp into `[0, len]`; never raises. -/
def pySlice {α : Type} (xs : List α) (a b : Int) : List α :=
  let n : Int := xs.length
  let a' : Nat := (if a < 0 then max (n + a) 0 else min a n).toNat
  let b' : Nat := (if b < 0 then max (n + b) 0 else min b n).toNat
  (xs.take b').drop a'

/-- `images_dir = 'jpg_rgb'`. -/
def images_dir : String := "jpg_rgb"

/-- `annotation_filename = 'annotations.json'`. -/
def annotation_filename : String := "annotations.json"

/-- The parsed record an annotation file holds for one image name: an object
with (at least) a `bounding_boxes` field. -/
structure AnnRecord where
  bounding_boxes : Target
  deriving DecidableEq

/-- The filesystem and external collaborators seen by the adapter. -/
structure FS where
  /-- `os.path.isdir` on a path. -/
  isDir : List String → Bool
  /-- `os.path.isfile` on a path. -/
  isFile : List String → Bool
  /-- `os.listdir` on a path. -/
  listdir : List String → List String
  /-- `np.asarray(Image.open(path))`: decoded pixel array at a path. -/
  readImage : List String → Img
  /-- `json.load(open(path))`: the parsed annotation file at a path, as a
  partial map from image name to its record (`none` = key absent). -/
  annFile : List String → String → Option AnnRecord

/-- `AVD.default_train_list` (11 scenes). -/
def default_train_list : List String :=
  [ "Home_002_1",
    "Home_003_1",
    "Home_003_2",
    "Home_004_1",
    "Home_004_2",
    "Home_005_1",
    "Home_005_2",
    "Home_006_1",
    "Home_014_1",
    "Home_014_2",
    "Office_001_1" ]

/-- `AVD.default_test_list` (3 scenes). -/
def default_test_list : List String :=
  [ "Home_001_1",
    "Home_001_2",
    "Home_008_1" ]

/-- The constructed adapter state after `AVD.__init__` succeeds. -/
structure AVD where
  root : String
  transform : Option (Img → Img)
  target_transform : Option (Target → Target)
  classification : Bool
  train : Bool
  scene_list : List String
  image_names : List String

/-- Error raised by `AVD.__init__` (`RuntimeError('Dataset not found or corrupted.')`),
named `DatasetNotFoundError` in the specification. -/
inductive DatasetError where
  | DatasetNotFound
  deriving DecidableEq

/-- Errors raised by `AVD.__getitem__`: Python `IndexError` (list or string or
box index out of range) and `KeyError` on the annotation mapping, named
`IndexOutOfRange` and `AnnotationMissing` in the specification. -/
inductive AccessError where
  | IndexOutOfRange
  | AnnotationMissing
  deriving DecidableEq

/-- Lines 77-82 of `__init__`: `if scene_list == None: ...` — a caller-supplied
list (even empty) is used as-is, else the built-in train or test list. -/
def resolveSceneList (train : Bool) (scene_list : Option (List String)) : List String :=
  match scene_list with
  | some l => l
  | none => if train then default_train_list else default_test_list

/-- `AVD._check_integrity`: every scene in the list has its directory, its
image subdirectory `jpg_rgb`, and its annotation file `annotations.json`. -/
def check_integrity (fs : FS) (root : String) (scene_list : List String) : Bool :=
  scene_list.all fun scene_name =>
    fs.isDir [root, scene_name] &&
    fs.isDir [root, scene_name, images_dir] &&
    fs.isFile [root, scene_name, annotation_filename]

/-- Lines 89-91 of `__init__`: `image_names.extend(os.listdir(join(root, scene, images_dir)))`
over the scene list. -/
def collectImageNames (fs : FS) (root : String) (scene_list : List String) : List String :=
  (scene_list.map fun scene => fs.listdir [root, scene, images_dir]).flatten

/-- Lexicographic comparison of character lists by code point: exactly how
Python compares two strings. -/
def charListLe : List Char → List Char → Bool
  | [], _ => true
  | _ :: _, [] => false
  | a :: as, b :: bs => if a < b then true else if b < a then false else charListLe as bs

/-- Python string comparison `a <= b`: lexicographic by code point. -/
def strLe (a b : String) : Bool :=
  charListLe a.toList b.toList

/-- Line 94 of `__init__`: `self.image_names.sort()` — ascending lexicographic
order on strings by code point. Python's sort is a stable sort by a total
order, and any stable sort by a total order produces the same list, so
insertion sort models it. -/
def sortNames (names : List String) : List String :=
  names.insertionSort fun a b => strLe a b = true

/-- `AVD.__init__ (root, train, transform, target_transform, scene_list, classification)`. -/
def AVD.init (fs : FS) (root : String) (train : Bool) (transform : Option (Img → Img))
    (target_transform : Option (Target → Target)) (scene_list : Option (List String))
    (classification : Bool) : Except DatasetError AVD :=
  let sl := resolveSceneList train scene_list
  if check_integrity fs root sl then
    .ok { root := root, transform := transform, target_transform := target_transform,
          classification := classification, train := train, scene_list := sl,
          image_names := sortNames (collectImageNames fs root sl) }
  else
    .error .DatasetNotFound

/-- Lines 107-111 of `__getitem__`: derive the owning scene name from the image
name; `none` models the `IndexError` on a name shorter than 5 characters. -/
def deriveSceneName (image_name : String) : Option String :=
  match image_name.toList.get? 0, image_name.toList.get? 4 with
  | some c0, some c4 =>
      let scene_type := if c0 = '0' then "Home" else "Office"
      some (scene_type ++ "_" ++ String.mk (pySlice image_name.toList 1 4) ++ "_"
            ++ String.mk [c4])
  | _, _ => none

/-- `img = self.transform(img)` when a transform was supplied (same for
`target_transform`). -/
def applyT {α : Type} (t : Option (α → α)) (x : α) : α :=
  match t with
  | none => x
  | some f => f x

/-- One iteration of the classification loop (lines 132-134):
`images.append(img[box[1]:box[3], box[0]:box[2], :]); ids.append(box[4])`.
`none` models the `IndexError` on a box with fewer than 5 elements. -/
def boxCrop (img : Img) (box : List Int) : Option (Img × Int) :=
  match box.get? 1, box.get? 3, box.get? 0, box.get? 2, box.get? 4 with
  | some y0, some y1, some x0, some x1, some instId =>
      some ((pySlice img y0 y1).map fun row => pySlice row x0 x1, instId)
  | _, _, _, _, _ => none

/-- Lines 128-136 of `__getitem__`: the classification branch, cropping each
box and collecting instance ids. -/
def cropForClassification (img : Img) (target : Target) : Option (List Img × List Int) :=
  (target.mapM (boxCrop img)).map List.unzip

/-- What `AVD.__getitem__` returns: either the pixel array with its box list
(detection mode), or the per-box crops with their instance ids
(classification mode). -/
inductive GetResult where
  | detection (img : Img) (target : Target)
  | classification (imgs : List Img) (ids : List Int)
  deriving DecidableEq

/-- `AVD.__getitem__(index)`. -/
def AVD.getitem (fs : FS) (a : AVD) (index : Int) : Except AccessError GetResult :=
  match pyIndex a.image_names index with
  | none => .error .IndexOutOfRange
  | some image_name =>
    match deriveSceneName image_name with
    | none => .error .IndexOutOfRange
    | some scene_name =>
      let img := fs.readImage [a.root, scene_name, images_dir, image_name]
      match fs.annFile [a.root, scene_name, annotation_filename] image_name with
      | none => .error .AnnotationMissing
      | some r =>
        let target := r.bounding_boxes
        let img := applyT a.transform img
        let target := applyT a.target_transform target
        if a.classification then
          match cropForClassification img target with
          | none => .error .IndexOutOfRange
          | some (images, ids) => .ok (.classification images ids)
        else
          .ok (.detection img target)

/-- `AVD.__len__`. -/
def AVD.length (a : AVD) : Nat :=
  a.image_names.length

/-- The scene-identifying prefix of an image name: its first five characters,
the exact characters lines 107-111 of `__getitem__` read (the spec: image
names "encode scene identity in their own characters"). -/
def sceneKey (image_name : String) : List Char :=
  image_name.toList.take 5

/-- `img` is an `H x W x C` pixel array: `H` rows, each of `W` pixels, each of
`C` channel values. -/
def imgShape (img : Img) (H W C : Nat) : Prop :=
  img.length = H ∧ ∀ row ∈ img, row.length = W ∧ ∀ px ∈ row, px.length = C

/-- A concrete all-zero 60 x 50 x 3 pixel array. -/
def imgC : Img :=
  List.replicate 60 (List.replicate 50 (List.replicate 3 0))

/-- A concrete filesystem on which every integrity check passes: every scene
directory holds the single image `"0420012345"`, whose annotation record has
one box. -/
def fsYes : FS where
  isDir := fun _ => true
  isFile := fun _ => true
  listdir := fun _ => ["0420012345"]
  readImage := fun _ => [[[7]]]
  annFile := fun _ _ => some ⟨[[0, 0, 1, 1, 9]]⟩

/-- The adapter `AVD.init fsYes "r" true none none (some ["s"]) false` builds. -/
def avdYes : AVD where
  root := "r"
  transform := none
  target_transform := none
  classification := false
  train := true
  scene_list := ["s"]
  image_names := ["0420012345"]

/-- Like `fsYes` but the parsed annotation file has no entries at all. -/
def fsNoAnn : FS where
  isDir := fun _ => true
  isFile := fun _ => true
  listdir := fun _ => ["0420012345"]
  readImage := fun _ => [[[7]]]
  annFile := fun _ _ => none

/-- Like `fsYes` but the annotation record carries the two boxes of the
classification example and images decode to the 60 x 50 x 3 array `imgC`. -/
def fsCls : FS where
  isDir := fun _ => true
  isFile := fun _ => true
  listdir := fun _ => ["0420012345"]
  readImage := fun _ => imgC
  annFile := fun _ _ => some ⟨[[10, 20, 50, 60, 3], [0, 0, 5, 5, 7]]⟩

/-- `avdYes` with classification mode enabled. -/
def avdCls : AVD where
  root := "r"
  transform := none
  target_transform := none
  classification := true
  train := true
  scene_list := ["s"]
  image_names := ["0420012345"]

/-- `avdYes` with an image transform that ignores its input and a target
transform that reverses the box list. -/
def avdT : AVD where
  root := "r"
  transform := some fun _ => [[[5]]]
  target_transform := some fun t => t.reverse
  classification := false
  train := true
  scene_list := ["s"]
  image_names := ["0420012345"]

/-- For nonnegative bounds, Python slicing is take-then-drop. -/
theorem pySlice_nonneg {α : Type} (xs : List α) (a b : Int) (ha : 0 ≤ a) (hb : 0 ≤ b) :
    pySlice xs a b = (xs.take b.toNat).drop a.toNat := by
  simp only [pySlice]
  rw [if_neg (by omega), if_neg (by omega)]
  have hbt : (min b (xs.length : Int)).toNat = min b.toNat xs.length := by omega
  have hat : (min a (xs.length : Int)).toNat = min a.toNat xs.length := by omega
  rw [hbt, hat]
  have h1 : xs.take (min b.toNat xs.length) = xs.take b.toNat := by
    rcases le_total b.toNat xs.length with h | h
    · rw [min_eq_left h]
    · rw [min_eq_right h, List.take_length, List.take_of_length_le h]
  rw [h1]
  rcases le_total a.toNat xs.length with h | h
  · rw [min_eq_left h]
  · rw [min_eq_right h]
    have hlen : (xs.take b.toNat).length ≤ xs.length := by
      simp [List.length_take]
    rw [List.drop_eq_nil_of_le hlen, List.drop_eq_nil_of_le (le_trans hlen h)]

/-- C1: for every image name of length at least 5, item access derives the
owning scene name purely from the name's first five characters: `'0'` at
position 0 gives type `Home`, anything else gives `Office`, and the scene is
`<Type>_<chars 1..3>_<char 4>`; in particular `"0420012345"` derives
`"Home_420_0"` and `"1420012345"` derives `"Office_420_0"`. -/
theorem C1_derive_scene_name (image_name : String) (h : 5 ≤ image_name.length) :
    deriveSceneName image_name = some (
      (if image_name.toList.getD 0 ' ' = '0' then "Home" else "Office")
      ++ "_" ++ String.mk ((image_name.toList.drop 1).take 3)
      ++ "_" ++ String.mk [image_name.toList.getD 4 ' ']) ∧
    deriveSceneName "0420012345" = some "Home_420_0" ∧
    deriveSceneName "1420012345" = some "Office_420_0" := by
  refine ⟨?_, by decide, by decide⟩
  obtain ⟨cs⟩ := image_name
  rcases cs with _ | ⟨a, _ | ⟨b, _ | ⟨c, _ | ⟨d, _ | ⟨e, rest⟩⟩⟩⟩⟩
  any_goals simp [String.length] at h
  simp only [deriveSceneName, pySlice_nonneg _ 1 4 (by omega) (by omega)]
  simp [String.toList, List.take]

/-- Witness for `C1_derive_scene_name` at the concrete name `"0420012345"`. -/
theorem C1_derive_scene_name_witness :
    5 ≤ ("0420012345" : String).length ∧
    deriveSceneName "0420012345" = some (
      (if ("0420012345" : String).toList.getD 0 ' ' = '0' then "Home" else "Office")
      ++ "_" ++ String.mk ((("0420012345" : String).toList.drop 1).take 3)
      ++ "_" ++ String.mk [("0420012345" : String).toList.getD 4 ' ']) :=
  ⟨by decide, (C1_derive_scene_name "0420012345" (by decide)).1⟩

/-- The integrity check is true exactly when every scene has its directory,
its image subdirectory and its annotation file. -/
theorem check_integrity_eq_true (fs : FS) (root : String) (l : List String) :
    check_integrity fs root l = true ↔
      ∀ s ∈ l, fs.isDir [root, s] = true ∧ fs.isDir [root, s, images_dir] = true ∧
        fs.isFile [root, s, annotation_filename] = true := by
  simp [check_integrity, List.all_eq_true, Bool.and_eq_true, and_assoc]

/-- C9: construction resolves the effective scene list as the caller-supplied
list whenever one is provided; otherwise the built-in train list (11 scenes)
when `train` is true and the built-in test list (3 scenes) when it is false;
a successful construction stores exactly that resolved list. -/
theorem C9_effective_scene_list :
    (∀ (t : Bool) (l : List String), resolveSceneList t (some l) = l) ∧
    resolveSceneList true none = default_train_list ∧
    resolveSceneList false none = default_test_list ∧
    default_train_list.length = 11 ∧
    default_test_list.length = 3 ∧
    (∀ (fs : FS) (root : String) (t : Bool) (tf : Option (Img → Img))
       (ttf : Option (Target → Target)) (sl : Option (List String)) (c : Bool) (a : AVD),
       AVD.init fs root t tf ttf sl c = .ok a → a.scene_list = resolveSceneList t sl) := by
  refine ⟨fun t l => rfl, rfl, rfl, rfl, rfl, ?_⟩
  intro fs root t tf ttf sl c a h
  by_cases hc : check_integrity fs root (resolveSceneList t sl) = true <;>
    simp [AVD.init, hc] at h
  rw [← h]

/-- C10: for every root, construction with a caller-supplied empty scene list
succeeds (the integrity check passes vacuously), the empty list is used as-is
rather than replaced by a default, and the resulting adapter has length 0. -/
theorem C10_empty_scene_list (fs : FS) (root : String) (t : Bool)
    (tf : Option (Img → Img)) (ttf : Option (Target → Target)) (c : Bool) :
    check_integrity fs root [] = true ∧
    AVD.init fs root t tf ttf (some []) c =
      .ok { root := root, transform := tf, target_transform := ttf, classification := c,
            train := t, scene_list := [], image_names := [] } ∧
    AVD.length { root := root, transform := tf, target_transform := ttf, classification := c,
                 train := t, scene_list := ([] : List String), image_names := [] } = 0 :=
  ⟨rfl, rfl, rfl⟩

/-- C3: construction fails with `DatasetNotFoundError` if and only if the
integrity check over the effective scene list is false, and the integrity
check is true exactly when every scene in the list has its directory, its
image subdirectory and its annotation file. -/
theorem C3_construction_error_iff (fs : FS) (root : String) (t : Bool)
    (tf : Option (Img → Img)) (ttf : Option (Target → Target))
    (sl : Option (List String)) (c : Bool) (l : List String) :
    (AVD.init fs root t tf ttf sl c = .error .DatasetNotFound ↔
      check_integrity fs root (resolveSceneList t sl) = false) ∧
    (check_integrity fs root l = true ↔
      ∀ s ∈ l, fs.isDir [root, s] = true ∧ fs.isDir [root, s, images_dir] = true ∧
        fs.isFile [root, s, annotation_filename] = true) := by
  refine ⟨?_, check_integrity_eq_true fs root l⟩
  by_cases hc : check_integrity fs root (resolveSceneList t sl) = true <;>
    simp [AVD.init, hc]

/-- C2: when all three integrity conditions hold for every scene of the
effective list, construction succeeds and `length()` is the total number of
entries across all scenes' image subdirectories. -/
theorem C2_success_and_length (fs : FS) (root : String) (t : Bool)
    (tf : Option (Img → Img)) (ttf : Option (Target → Target))
    (sl : Option (List String)) (c : Bool)
    (h : ∀ s ∈ resolveSceneList t sl, fs.isDir [root, s] = true ∧
      fs.isDir [root, s, images_dir] = true ∧ fs.isFile [root, s, annotation_filename] = true) :
    ∃ a, AVD.init fs root t tf ttf sl c = .ok a ∧
      a.length = ((resolveSceneList t sl).map fun s =>
        (fs.listdir [root, s, images_dir]).length).sum := by
  have hc : check_integrity fs root (resolveSceneList t sl) = true :=
    (check_integrity_eq_true _ _ _).mpr h
  refine ⟨{ root := root, transform := tf, target_transform := ttf, classification := c,
            train := t, scene_list := resolveSceneList t sl,
            image_names := sortNames (collectImageNames fs root (resolveSceneList t sl)) },
    by simp [AVD.init, hc], ?_⟩
  show (sortNames (collectImageNames fs root (resolveSceneList t sl))).length = _
  rw [sortNames, List.length_insertionSort, collectImageNames, List.length_flatten,
    List.map_map]
  rfl

/-- Witness for `C2_success_and_length`: a filesystem on which every check
passes and every scene's image subdirectory lists one file. -/
theorem C2_success_and_length_witness :
    ∃ a, AVD.init fsYes "r" true none none (some ["s1", "s2"]) false = .ok a ∧
      a.length = ((resolveSceneList true (some ["s1", "s2"])).map fun s =>
        (fsYes.listdir ["r", s, images_dir]).length).sum :=
  C2_success_and_length fsYes "r" true none none (some ["s1", "s2"]) false (by decide)

/-- C7: on item access, when the looked-up image name is absent from the
parsed annotation mapping of its derived scene, access fails with
`AnnotationMissing`; otherwise the target is the `bounding_boxes` list of the
record keyed by the exact image name (here with no target transform and
detection mode, so the target is returned as loaded). -/
theorem C7_annotation_lookup (fs : FS) (a : AVD) (index : Int)
    (image_name scene_name : String)
    (hidx : pyIndex a.image_names index = some image_name)
    (hscene : deriveSceneName image_name = some scene_name) :
    (fs.annFile [a.root, scene_name, annotation_filename] image_name = none →
      AVD.getitem fs a index = .error .AnnotationMissing) ∧
    (∀ r : AnnRecord,
      fs.annFile [a.root, scene_name, annotation_filename] image_name = some r →
      a.target_transform = none → a.classification = false →
      AVD.getitem fs a index = .ok (.detection
        (applyT a.transform (fs.readImage [a.root, scene_name, images_dir, image_name]))
        r.bounding_boxes)) := by
  constructor
  · intro hann
    simp only [AVD.getitem, hidx, hscene, hann]
  · intro r hann htt hcls
    simp only [AVD.getitem, hidx, hscene, hann, htt, hcls, applyT, Bool.false_eq_true,
      if_false]

/-- Witness for `C7_annotation_lookup`: on `fsNoAnn` the name `"0420012345"`
is absent and access fails; on `fsYes` it is present and the record's box
list is returned. -/
theorem C7_annotation_lookup_witness :
    AVD.getitem fsNoAnn avdYes 0 = .error .AnnotationMissing ∧
    AVD.getitem fsYes avdYes 0 = .ok (.detection
      (applyT avdYes.transform (fsYes.readImage ["r", "Home_420_0", images_dir, "0420012345"]))
      (AnnRecord.mk [[0, 0, 1, 1, 9]]).bounding_boxes) :=
  ⟨(C7_annotation_lookup fsNoAnn avdYes 0 "0420012345" "Home_420_0"
      (by decide) (by decide)).1 rfl,
   (C7_annotation_lookup fsYes avdYes 0 "0420012345" "Home_420_0"
      (by decide) (by decide)).2 ⟨[[0, 0, 1, 1, 9]]⟩ rfl rfl rfl⟩

/-- C5: on item access a supplied image transform replaces the loaded image
with `transform(image)` and a supplied target transform replaces the loaded
target with `target_transform(target)`, both before any classification
cropping; a constant-valued image transform makes the returned pre-crop image
equal that constant regardless of file contents. -/
theorem C5_transforms (fs : FS) (a : AVD) (index : Int)
    (image_name scene_name : String) (r : AnnRecord)
    (hidx : pyIndex a.image_names index = some image_name)
    (hscene : deriveSceneName image_name = some scene_name)
    (hann : fs.annFile [a.root, scene_name, annotation_filename] image_name = some r)
    (hcls : a.classification = false) :
    (∀ (f : Img → Img) (g : Target → Target),
      a.transform = some f → a.target_transform = some g →
      AVD.getitem fs a index = .ok (.detection
        (f (fs.readImage [a.root, scene_name, images_dir, image_name]))
        (g r.bounding_boxes))) ∧
    (∀ k : Img, a.transform = some (fun _ => k) →
      AVD.getitem fs a index = .ok (.detection k
        (applyT a.target_transform r.bounding_boxes))) := by
  constructor
  · intro f g htr htt
    simp only [AVD.getitem, hidx, hscene, hann, htr, htt, hcls, applyT,
      Bool.false_eq_true, if_false]
  · intro k htr
    simp only [AVD.getitem, hidx, hscene, hann, htr, hcls, applyT,
      Bool.false_eq_true, if_false]

/-- Witness for `C5_transforms` on `avdT`, whose image transform is the
constant `[[[5]]]` and whose target transform reverses the box list. -/
theorem C5_transforms_witness :
    AVD.getitem fsYes avdT 0 = .ok (.detection
      ((fun _ => [[[5]]] : Img → Img) (fsYes.readImage ["r", "Home_420_0", images_dir, "0420012345"]))
      ((fun t => t.reverse : Target → Target) (AnnRecord.mk [[0, 0, 1, 1, 9]]).bounding_boxes)) :=
  (C5_transforms fsYes avdT 0 "0420012345" "Home_420_0" ⟨[[0, 0, 1, 1, 9]]⟩
    (by decide) (by decide) rfl rfl).1 (fun _ => [[[5]]]) (fun t => t.reverse) rfl rfl

/-- C6 counterexample: `avdYes` is a constructed adapter of length 1, the
index `-1` is negative, yet `get(-1)` does not raise `IndexOutOfRange` — it
wraps Python-style to the last image and returns it. -/
theorem C6_counterexample :
    AVD.init fsYes "r" true none none (some ["s"]) false = .ok avdYes ∧
    (-1 : Int) < 0 ∧
    AVD.getitem fsYes avdYes (-1) ≠ .error .IndexOutOfRange ∧
    AVD.getitem fsYes avdYes (-1) = .ok (.detection [[[7]]] [[0, 0, 1, 1, 9]]) := by
  refine ⟨rfl, by decide, fun hcontra => ?_, rfl⟩
  have h4 : AVD.getitem fsYes avdYes (-1) =
      Except.ok (GetResult.detection [[[7]]] [[0, 0, 1, 1, 9]]) := rfl
  rw [h4] at hcontra
  exact Except.noConfusion hcontra

/-- C6 (amended): item access raises `IndexOutOfRange` for every index below
`-length()` or at least `length()`; a negative index in `[-length(), 0)` wraps
Python-style instead of raising. -/
theorem C6_out_of_range (fs : FS) (a : AVD) (i : Int)
    (h : i < -(AVD.length a : Int) ∨ (AVD.length a : Int) ≤ i) :
    AVD.getitem fs a i = .error .IndexOutOfRange := by
  have h' : i < -(a.image_names.length : Int) ∨ (a.image_names.length : Int) ≤ i := h
  have hnone : pyIndex a.image_names i = none := by
    simp only [pyIndex]
    by_cases hi : i < 0
    · rw [if_pos hi, if_neg (by omega)]
    · rw [if_neg hi, if_neg (by omega)]
  simp only [AVD.getitem, hnone]

/-- Witness for `C6_out_of_range`: index 1 on the length-1 adapter `avdYes`. -/
theorem C6_out_of_range_witness :
    ((1 : Int) < -(AVD.length avdYes : Int) ∨ (AVD.length avdYes : Int) ≤ 1) ∧
    AVD.getitem fsYes avdYes 1 = .error .IndexOutOfRange :=
  ⟨Or.inr (by decide), C6_out_of_range fsYes avdYes 1 (Or.inr (by decide))⟩

/-- A box with at least five elements crops successfully: rows `box[1]:box[3]`,
columns `box[0]:box[2]`, id `box[4]`. -/
theorem boxCrop_of_five (img : Img) (box : List Int) (h : 5 ≤ box.length) :
    boxCrop img box =
      some ((pySlice img (box.getD 1 0) (box.getD 3 0)).map fun row =>
        pySlice row (box.getD 0 0) (box.getD 2 0), box.getD 4 0) := by
  rcases box with _ | ⟨b0, _ | ⟨b1, _ | ⟨b2, _ | ⟨b3, _ | ⟨b4, rest⟩⟩⟩⟩⟩
  any_goals simp at h
  rfl

/-- Cropping a whole target of five-element boxes never fails. -/
theorem mapM_boxCrop_of_five (img : Img) :
    ∀ (target : Target), (∀ box ∈ target, 5 ≤ box.length) →
      target.mapM (boxCrop img) =
        some (target.map fun box =>
          ((pySlice img (box.getD 1 0) (box.getD 3 0)).map fun row =>
            pySlice row (box.getD 0 0) (box.getD 2 0), box.getD 4 0))
  | [], _ => rfl
  | box :: rest, h => by
    rw [List.mapM_cons, boxCrop_of_five img box (h box (List.mem_cons_self _ _)),
      mapM_boxCrop_of_five img rest fun b hb => h b (List.mem_cons_of_mem _ hb)]
    rfl

/-- Unzipping a list of pairs built pointwise gives the two pointwise lists. -/
theorem unzip_map_pair {α β γ : Type} (f : α → β) (g : α → γ) :
    ∀ l : List α, (l.map fun x => (f x, g x)).unzip = (l.map f, l.map g)
  | [] => rfl
  | x :: xs => by simp [List.unzip_cons, unzip_map_pair f g xs]

/-- The classification branch on a target of five-element boxes: crops in
original order paired with the boxes' instance ids. -/
theorem cropForClassification_of_five (img : Img) (target : Target)
    (h : ∀ box ∈ target, 5 ≤ box.length) :
    cropForClassification img target =
      some (target.map fun box =>
              (pySlice img (box.getD 1 0) (box.getD 3 0)).map fun row =>
                pySlice row (box.getD 0 0) (box.getD 2 0),
            target.map fun box => box.getD 4 0) := by
  rw [cropForClassification, mapM_boxCrop_of_five img target h]
  simp [unzip_map_pair]

/-- Slicing rows `[a:b]` and columns `[c:d]` of an `H x W x C` array yields a
`(b-a) x (d-c) x C` array when `0 ≤ a ≤ b ≤ H` and `0 ≤ c ≤ d ≤ W`. -/
theorem imgShape_pySlice (img : Img) (H W C : Nat) (hs : imgShape img H W C)
    (a b c d : Int) (ha : 0 ≤ a) (hab : a ≤ b) (hb : b ≤ (H : Int))
    (hc : 0 ≤ c) (hcd : c ≤ d) (hd : d ≤ (W : Int)) :
    imgShape ((pySlice img a b).map fun row => pySlice row c d)
      (b - a).toNat (d - c).toNat C := by
  obtain ⟨hlen, hrows⟩ := hs
  constructor
  · rw [List.length_map, pySlice_nonneg _ _ _ ha (le_trans ha hab), List.length_drop,
      List.length_take, hlen]
    omega
  · intro row hrow
    rw [List.mem_map] at hrow
    obtain ⟨row0, hrow0, rfl⟩ := hrow
    rw [pySlice_nonneg _ _ _ ha (le_trans ha hab)] at hrow0
    have hrow0m : row0 ∈ img := List.mem_of_mem_take (List.mem_of_mem_drop hrow0)
    obtain ⟨hwl, hpx⟩ := hrows row0 hrow0m
    constructor
    · rw [pySlice_nonneg _ _ _ hc (le_trans hc hcd), List.length_drop,
        List.length_take, hwl]
      omega
    · intro px hpxm
      rw [pySlice_nonneg _ _ _ hc (le_trans hc hcd)] at hpxm
      exact hpx px (List.mem_of_mem_take (List.mem_of_mem_drop hpxm))

/-- C4: in classification mode, item access returns, for every box of the
(possibly transformed) target in original order, the crop
`image[box[1]:box[3], box[0]:box[2], :]` and the box's element at index 4,
ignoring later elements; for boxes `[[10,20,50,60,3],[0,0,5,5,7]]` over an
image of shape `H x W x C` with `H ≥ 60`, `W ≥ 50`, the two crops have shapes
`(40,40,C)` and `(5,5,C)` and the returned target is `[3, 7]`. -/
theorem C4_classification_mode (fs : FS) (a : AVD) (index : Int)
    (image_name scene_name : String) (r : AnnRecord)
    (hidx : pyIndex a.image_names index = some image_name)
    (hscene : deriveSceneName image_name = some scene_name)
    (hann : fs.annFile [a.root, scene_name, annotation_filename] image_name = some r)
    (hcls : a.classification = true)
    (hboxes : ∀ box ∈ applyT a.target_transform r.bounding_boxes, 5 ≤ box.length) :
    AVD.getitem fs a index = .ok (.classification
      ((applyT a.target_transform r.bounding_boxes).map fun box =>
        (pySlice (applyT a.transform (fs.readImage [a.root, scene_name, images_dir, image_name]))
            (box.getD 1 0) (box.getD 3 0)).map fun row =>
          pySlice row (box.getD 0 0) (box.getD 2 0))
      ((applyT a.target_transform r.bounding_boxes).map fun box => box.getD 4 0)) ∧
    (∀ (img : Img) (H W Cc : Nat), imgShape img H W Cc → 60 ≤ H → 50 ≤ W →
      cropForClassification img [[10, 20, 50, 60, 3], [0, 0, 5, 5, 7]] =
        some ([(pySlice img 20 60).map fun row => pySlice row 10 50,
               (pySlice img 0 5).map fun row => pySlice row 0 5], [3, 7]) ∧
      imgShape ((pySlice img 20 60).map fun row => pySlice row 10 50) 40 40 Cc ∧
      imgShape ((pySlice img 0 5).map fun row => pySlice row 0 5) 5 5 Cc) := by
  constructor
  · simp only [AVD.getitem, hidx, hscene, hann, hcls, if_true,
      cropForClassification_of_five _ _ hboxes]
  · intro img H W Cc hshape h60 h50
    refine ⟨?_, ?_, ?_⟩
    · rw [cropForClassification_of_five img _ (by
        intro box hb
        simp only [List.mem_cons, List.not_mem_nil, or_false] at hb
        rcases hb with rfl | rfl <;> decide)]
      simp
    · exact imgShape_pySlice img H W Cc hshape 20 60 10 50 (by norm_num) (by norm_num)
        (by exact_mod_cast h60) (by norm_num) (by norm_num) (by exact_mod_cast h50)
    · exact imgShape_pySlice img H W Cc hshape 0 5 0 5 (by norm_num) (by norm_num)
        (by omega) (by norm_num) (by norm_num) (by omega)

/-- Witness for `C4_classification_mode`: the adapter `avdCls` over `fsCls`,
whose annotation record holds the example's two boxes and whose images decode
to the 60 x 50 x 3 array `imgC`. -/
theorem C4_classification_mode_witness :
    AVD.getitem fsCls avdCls 0 = .ok (.classification
      (([[10, 20, 50, 60, 3], [0, 0, 5, 5, 7]] : Target).map fun box =>
        (pySlice imgC (box.getD 1 0) (box.getD 3 0)).map fun row =>
          pySlice row (box.getD 0 0) (box.getD 2 0))
      (([[10, 20, 50, 60, 3], [0, 0, 5, 5, 7]] : Target).map fun box => box.getD 4 0)) ∧
    (∀ (img : Img) (H W Cc : Nat), imgShape img H W Cc → 60 ≤ H → 50 ≤ W →
      cropForClassification img [[10, 20, 50, 60, 3], [0, 0, 5, 5, 7]] =
        some ([(pySlice img 20 60).map fun row => pySlice row 10 50,
               (pySlice img 0 5).map fun row => pySlice row 0 5], [3, 7]) ∧
      imgShape ((pySlice img 20 60).map fun row => pySlice row 10 50) 40 40 Cc ∧
      imgShape ((pySlice img 0 5).map fun row => pySlice row 0 5) 5 5 Cc) :=
  C4_classification_mode fsCls avdCls 0 "0420012345" "Home_420_0"
    ⟨[[10, 20, 50, 60, 3], [0, 0, 5, 5, 7]]⟩ (by decide) (by decide) rfl rfl (by decide)

/-- Head-and-tail characterisation of `charListLe` on two nonempty lists. -/
theorem charListLe_cons_iff (a b : Char) (as bs : List Char) :
    charListLe (a :: as) (b :: bs) = true ↔ a < b ∨ (a = b ∧ charListLe as bs = true) := by
  simp only [charListLe]
  rcases lt_trichotomy a b with h | h | h
  · simp [h]
  · subst h
    simp [lt_irrefl]
  · have h1 : ¬ a < b := not_lt_of_gt h
    have h2 : a ≠ b := ne_of_gt h
    simp [h1, h, h2]

/-- `charListLe` is total. -/
theorem charListLe_total : ∀ x y : List Char, charListLe x y = true ∨ charListLe y x = true
  | [], _ => Or.inl rfl
  | _ :: _, [] => Or.inr rfl
  | a :: as, b :: bs => by
    rcases lt_trichotomy a b with h | h | h
    · exact Or.inl ((charListLe_cons_iff a b as bs).mpr (Or.inl h))
    · subst h
      rcases charListLe_total as bs with h | h
      · exact Or.inl ((charListLe_cons_iff a a as bs).mpr (Or.inr ⟨rfl, h⟩))
      · exact Or.inr ((charListLe_cons_iff a a bs as).mpr (Or.inr ⟨rfl, h⟩))
    · exact Or.inr ((charListLe_cons_iff b a bs as).mpr (Or.inl h))

/-- `charListLe` is transitive. -/
theorem charListLe_trans : ∀ x y z : List Char,
    charListLe x y = true → charListLe y z = true → charListLe x z = true
  | [], _, _, _, _ => rfl
  | _ :: _, [], _, h1, _ => by simp [charListLe] at h1
  | _ :: _, _ :: _, [], _, h2 => by simp [charListLe] at h2
  | a :: as, b :: bs, c :: cs, h1, h2 => by
    rw [charListLe_cons_iff] at h1 h2 ⊢
    rcases h1 with h1 | ⟨rfl, h1⟩
    · rcases h2 with h2 | ⟨rfl, h2⟩
      · exact Or.inl (lt_trans h1 h2)
      · exact Or.inl h1
    · rcases h2 with h2 | ⟨rfl, h2⟩
      · exact Or.inl h2
      · exact Or.inr ⟨rfl, charListLe_trans as bs cs h1 h2⟩

/-- `charListLe` is antisymmetric. -/
theorem charListLe_antisymm : ∀ x y : List Char,
    charListLe x y = true → charListLe y x = true → x = y
  | [], [], _, _ => rfl
  | [], _ :: _, _, h2 => by simp [charListLe] at h2
  | _ :: _, [], h1, _ => by simp [charListLe] at h1
  | a :: as, b :: bs, h1, h2 => by
    rw [charListLe_cons_iff] at h1 h2
    rcases h1 with h1 | ⟨rfl, h1⟩
    · rcases h2 with h2 | ⟨h2e, _⟩
      · exact absurd (lt_trans h1 h2) (lt_irrefl a)
      · exact absurd (h2e ▸ h1) (lt_irrefl b)
    · rcases h2 with h2 | ⟨_, h2⟩
      · exact absurd h2 (lt_irrefl a)
      · rw [charListLe_antisymm as bs h1 h2]

/-- Between two lists that agree on their first `n` characters, any
lexicographically intermediate list agrees on them too. -/
theorem charListLe_take_sandwich :
    ∀ (n : Nat) (x y z : List Char), charListLe x y = true → charListLe y z = true →
      x.take n = z.take n → y.take n = x.take n
  | 0, _, _, _, _, _, _ => by simp
  | n + 1, [], y, z, _, hyz, hxz => by
    have hz : z = [] := by
      cases z with
      | nil => rfl
      | cons c cs => simp [List.take] at hxz
    subst hz
    have hy : y = [] := by
      cases y with
      | nil => rfl
      | cons b bs => simp [charListLe] at hyz
    subst hy
    rfl
  | n + 1, a :: as, y, z, hxy, hyz, hxz => by
    rcases z with _ | ⟨c, cs⟩
    · simp [List.take] at hxz
    rcases y with _ | ⟨b, bs⟩
    · simp [charListLe] at hxy
    simp only [List.take_succ_cons, List.cons.injEq] at hxz ⊢
    obtain ⟨rfl, hxz2⟩ := hxz
    rw [charListLe_cons_iff] at hxy hyz
    have hba : b = a := by
      rcases hxy with h1 | ⟨h1, _⟩
      · rcases hyz with h2 | ⟨h2, _⟩
        · exact absurd (lt_trans h1 h2) (lt_irrefl a)
        · exact h2
      · exact h1.symm
    subst hba
    rcases hxy with h1 | ⟨_, h1⟩
    · exact absurd h1 (lt_irrefl b)
    rcases hyz with h2 | ⟨_, h2⟩
    · exact absurd h2 (lt_irrefl b)
    exact ⟨rfl, charListLe_take_sandwich n as bs cs h1 h2 hxz2⟩

/-- The sorted image-name list is sorted by code-point order. -/
theorem sortNames_sorted (l : List String) :
    List.Sorted (fun a b => strLe a b = true) (sortNames l) := by
  haveI : IsTotal String fun a b => strLe a b = true :=
    ⟨fun a b => charListLe_total a.toList b.toList⟩
  haveI : IsTrans String fun a b => strLe a b = true :=
    ⟨fun a b c => charListLe_trans a.toList b.toList c.toList⟩
  exact List.sorted_insertionSort _ l

/-- Sorting is invariant under permutation of the input listing. -/
theorem sortNames_eq_of_perm {l1 l2 : List String} (h : l1.Perm l2) :
    sortNames l1 = sortNames l2 := by
  haveI : IsAntisymm String fun a b => strLe a b = true := ⟨fun a b h1 h2 => by
    have he := charListLe_antisymm a.toList b.toList h1 h2
    exact String.toList_inj.mp he⟩
  exact List.eq_of_perm_of_sorted
    ((List.perm_insertionSort _ l1).trans (h.trans (List.perm_insertionSort _ l2).symm))
    (sortNames_sorted l1) (sortNames_sorted l2)

/-- Per-scene listings that are permutations of each other collect to
permuted name lists. -/
theorem collectImageNames_perm (fs1 fs2 : FS) (root : String) :
    ∀ sl : List String,
      (∀ s ∈ sl, (fs1.listdir [root, s, images_dir]).Perm (fs2.listdir [root, s, images_dir])) →
      (collectImageNames fs1 root sl).Perm (collectImageNames fs2 root sl)
  | [], _ => .refl _
  | s :: rest, h => by
    simp only [collectImageNames, List.map_cons, List.flatten_cons]
    exact (h s (List.mem_cons_self _ _)).append
      (collectImageNames_perm fs1 fs2 root rest fun s2 hs2 => h s2 (List.mem_cons_of_mem _ hs2))

/-- A successful construction stores the sorted collected image names. -/
theorem init_ok_image_names (fs : FS) (root : String) (t : Bool)
    (tf : Option (Img → Img)) (ttf : Option (Target → Target))
    (sl : Option (List String)) (c : Bool) (a : AVD)
    (h : AVD.init fs root t tf ttf sl c = .ok a) :
    a.image_names = sortNames (collectImageNames fs root (resolveSceneList t sl)) := by
  by_cases hc : check_integrity fs root (resolveSceneList t sl) = true <;>
    simp [AVD.init, hc] at h
  rw [← h]

/-- C8: construction is deterministic up to directory-listing order — two
constructions over the same scene list whose per-scene listings are
permutations of each other store identical sorted index-to-name mappings —
and in each stored mapping the names sharing a scene-identifying 5-character
prefix (the characters that embed scene identity) are contiguous. -/
theorem C8_deterministic_and_scene_contiguous :
    (∀ (fs1 fs2 : FS) (root : String) (t : Bool)
       (tf1 tf2 : Option (Img → Img)) (ttf1 ttf2 : Option (Target → Target))
       (sl : Option (List String)) (c1 c2 : Bool) (a1 a2 : AVD),
      (∀ s ∈ resolveSceneList t sl,
        (fs1.listdir [root, s, images_dir]).Perm (fs2.listdir [root, s, images_dir])) →
      AVD.init fs1 root t tf1 ttf1 sl c1 = .ok a1 →
      AVD.init fs2 root t tf2 ttf2 sl c2 = .ok a2 →
      a1.image_names = a2.image_names) ∧
    (∀ (fs : FS) (root : String) (t : Bool) (tf : Option (Img → Img))
       (ttf : Option (Target → Target)) (sl : Option (List String)) (c : Bool) (a : AVD),
      AVD.init fs root t tf ttf sl c = .ok a →
      ∀ (i j k : Fin a.image_names.length), i ≤ j → j ≤ k →
        sceneKey (a.image_names.get i) = sceneKey (a.image_names.get k) →
        sceneKey (a.image_names.get j) = sceneKey (a.image_names.get i)) := by
  constructor
  · intro fs1 fs2 root t tf1 tf2 ttf1 ttf2 sl c1 c2 a1 a2 hperm h1 h2
    rw [init_ok_image_names _ _ _ _ _ _ _ _ h1, init_ok_image_names _ _ _ _ _ _ _ _ h2]
    exact sortNames_eq_of_perm (collectImageNames_perm fs1 fs2 root _ hperm)
  · intro fs root t tf ttf sl c a h i j k hij hjk hik
    have hsorted : List.Sorted (fun x y => strLe x y = true) a.image_names := by
      rw [init_ok_image_names _ _ _ _ _ _ _ _ h]
      exact sortNames_sorted _
    rcases eq_or_lt_of_le hij with rfl | hij2
    · rfl
    rcases eq_or_lt_of_le hjk with rfl | hjk2
    · exact hik.symm
    have r1 : strLe (a.image_names.get i) (a.image_names.get j) = true :=
      hsorted.rel_get_of_lt hij2
    have r2 : strLe (a.image_names.get j) (a.image_names.get k) = true :=
      hsorted.rel_get_of_lt hjk2
    simp only [sceneKey] at hik ⊢
    exact charListLe_take_sandwich 5 (a.image_names.get i).toList
      (a.image_names.get j).toList (a.image_names.get k).toList r1 r2 hik
